import Mathlib

/-!
Verification of the HDL parser and chip-simulation engine.

This file gives a shallow embedding, in Lean 4, of the Python sources
`hdl_parser/parser.py`, `hdl_parser/models.py` and `hdl_parser/simulator.py`,
together with theorems settling the specification claims about them.

Modelling conventions:
* Python dicts become association lists over `String` keys; `alistSet`
  updates an existing key in place (keeping its position, as CPython dicts
  do) and appends a fresh key at the end; `alistGetD` is `dict.get(k, d)`.
* The mutable simulator state (the parser's `chips_cache` and the
  simulator's shared `signal_values` attribute) is threaded explicitly as a
  `SimSt` value.  Crucially, `ChipSimulator.simulate` stores the signal
  environment on `self`, so a recursive sub-chip call replaces the caller's
  environment; the embedding reproduces this sharing faithfully.
* Python exceptions become `Except` values: `PError.fileNotFound` is
  `FileNotFoundError`, `PError.formatError` is the `ValueError` raised by
  `parse_hdl` when no CHIP block matches, and `SimError.unknownChip n` is
  the `ValueError(f"Unknown chip type: {n}")` raised by `_simulate_custom`
  (the spec calls these `NotFoundError`, `FormatError`, `UnknownChipError`).
* Python's unbounded recursion is modelled with a fuel parameter; the
  distinct outcome `SimError.outOfFuel` never arises at the depths used in
  the claims and stands for a Python stack overflow on cyclic definitions.
* The regex extraction phase of `parse_hdl` (`re.search` for the CHIP
  block, the IN/OUT pin lists and the PARTS matches) is abstracted into an
  `HDLSource` record holding exactly the match results; everything after
  extraction (instance naming, connection building, internal-pin inference,
  caching) is translated statement by statement.
-/


/-- Association-list lookup, mirroring Python `dict.__getitem__` /
`in`-membership on string-keyed dicts. -/
def alistGet? {α : Type} : List (String × α) → String → Option α
  | [], _ => none
  | (k, v) :: rest, key => if k = key then some v else alistGet? rest key

/-- Association-list lookup with default, mirroring Python `dict.get(k, d)`. -/
def alistGetD {α : Type} (l : List (String × α)) (key : String) (d : α) : α :=
  match alistGet? l key with
  | some v => v
  | none => d

/-- Association-list update, mirroring Python `dict.__setitem__`: an existing
key keeps its position, a new key is appended at the end. -/
def alistSet {α : Type} : List (String × α) → String → α → List (String × α)
  | [], key, val => [(key, val)]
  | (k, v) :: rest, key, val =>
      if k = key then (key, val) :: rest else (k, v) :: alistSet rest key val

/-- Connection dataclass from `models.py`: `destination` is the pin name
inside the instantiated chip, `source` the signal name in the enclosing
chip. -/
structure Connection where
  source : String
  destination : String
deriving DecidableEq, Repr

/-- ChipInstance dataclass from `models.py`. -/
structure ChipInstance where
  chip_type : String
  name : String
  connections : List Connection
deriving DecidableEq, Repr

/-- ChipDefinition dataclass from `models.py`.  `internal_pins` is a Python
set; it is modelled as a duplicate-free list, built by insert-if-absent. -/
structure ChipDefinition where
  name : String
  inputs : List String
  outputs : List String
  parts : List ChipInstance
  internal_pins : List String
deriving DecidableEq, Repr

/-- The built-in Nand definition from `HDLParser._init_builtin_chips`. -/
def nandChip : ChipDefinition := ⟨"Nand", ["a", "b"], ["out"], [], []⟩

/-- The built-in Not definition from `HDLParser._init_builtin_chips`. -/
def notChip : ChipDefinition := ⟨"Not", ["in"], ["out"], [], []⟩

/-- The built-in And definition from `HDLParser._init_builtin_chips`. -/
def andChip : ChipDefinition := ⟨"And", ["a", "b"], ["out"], [], []⟩

/-- The built-in Or definition from `HDLParser._init_builtin_chips`. -/
def orChip : ChipDefinition := ⟨"Or", ["a", "b"], ["out"], [], []⟩

/-- The `built_in_chips` dict of `HDLParser`, never mutated afterwards. -/
def built_in_chips : List (String × ChipDefinition) :=
  [("Nand", nandChip), ("Not", notChip), ("And", andChip), ("Or", orChip)]

/-- A chip-type registry (the parser's `chips_cache`). -/
abbrev Cache := List (String × ChipDefinition)

/-- The initial `chips_cache`: seeded with the four built-ins. -/
def initCache : Cache := built_in_chips

/-- A signal-value environment (`signal_values`, and also input/output
dicts), binary values stored as `Nat` exactly as Python stores ints. -/
abbrev Env := List (String × Nat)

/-- One `destination=source` match of the connection regex in
`_parse_connections`: the pair is (destination, source) in group order. -/
abbrev RawConn := String × String

/-- One match of the part regex in `_parse_parts_section`: the chip-type
name and the connection matches found inside the parentheses. -/
abbrev RawPart := String × List RawConn

/-- Result of the regex extraction phase of `parse_hdl` on a source text:
the CHIP header name, the IN and OUT pin lists, and the PARTS matches.
Everything `parse_hdl` does after `re.search` succeeds is a function of
exactly these pieces. -/
structure HDLSource where
  chipName : String
  inputs : List String
  outputs : List String
  rawParts : List RawPart
deriving DecidableEq, Repr

/-- Translation of `_parse_connections`: each (destination, source) match
becomes `Connection(source, destination)`. -/
def parse_connections (raw : List RawConn) : List Connection :=
  raw.map fun pr => ⟨pr.2, pr.1⟩

/-- Python `set.add`: insert a string if absent (membership is all that the
code ever observes of `internal_pins`). -/
def insertSet (l : List String) (s : String) : List String :=
  if s ∈ l then l else l ++ [s]

/-- The internal-pin bookkeeping done for one connection inside the part
loop of `_parse_parts_section`: first add `source` when it is neither an
input nor an output of the enclosing chip; then, when the destination is a
primitive input pin, add `source` again under the same guard. -/
def trackInternal (inputs outputs : List String) (acc : List String)
    (c : Connection) : List String :=
  let acc1 :=
    if c.source ∉ inputs ∧ c.source ∉ outputs then insertSet acc c.source
    else acc
  if c.destination ∈ ["a", "b", "in"] ∧ c.source ∉ inputs ∧ c.source ∉ outputs
  then insertSet acc1 c.source
  else acc1

/-- The part-matching loop of `_parse_parts_section`: builds the instance
list (instance names are `"<type>_<ordinal>"`, ordinal counted over parts
already built) and the internal-pin set. -/
def parse_parts_loop (inputs outputs : List String) :
    List RawPart → List ChipInstance → List String →
    List ChipInstance × List String
  | [], parts, internal => (parts, internal)
  | (ty, rawConns) :: rest, parts, internal =>
      let conns := parse_connections rawConns
      let inst : ChipInstance := ⟨ty, ty ++ "_" ++ toString parts.length, conns⟩
      let internal1 := conns.foldl (trackInternal inputs outputs) internal
      parse_parts_loop inputs outputs rest (parts ++ [inst]) internal1

/-- Translation of `_parse_parts_section` applied to the PARTS matches. -/
def parse_parts_section (src : HDLSource) : List ChipInstance × List String :=
  parse_parts_loop src.inputs src.outputs src.rawParts [] []

/-- Translation of `HDLParser.parse_hdl` after regex extraction: build the
definition from the extracted sections and cache it under the parsed CHIP
header name.  The `expected_name` argument is accepted and never used,
exactly as in the source. -/
def parse_hdl (src : HDLSource) (expected_name : Option String)
    (cache : Cache) : ChipDefinition × Cache :=
  let ps := parse_parts_section src
  let chip_def : ChipDefinition :=
    ⟨src.chipName, src.inputs, src.outputs, ps.1, ps.2⟩
  (chip_def, alistSet cache src.chipName chip_def)

/-- Parse-time exceptions: `fileNotFound` is Python's `FileNotFoundError`,
`formatError` the `ValueError` raised when no CHIP block is found. -/
inductive PError where
  | fileNotFound : PError
  | formatError : PError
deriving DecidableEq, Repr

/-- The ambient file namespace: a file name maps to nothing when the file
does not exist, to `some none` when it exists but its text has no
recognizable CHIP block (regex extraction fails), and to `some (some src)`
when extraction succeeds with the pieces `src`. -/
abbrev FS := String → Option (Option HDLSource)

/-- Python `Path(filename).stem`: the file name with its `.hdl` suffix
removed (the only shape of file name the engine ever builds). -/
def fileStem (filename : String) : String :=
  if filename.endsWith ".hdl" then filename.dropRight 4 else filename

/-- Translation of `HDLParser.parse_file`: missing file raises
`FileNotFoundError`; otherwise the content goes to `parse_hdl` with the
file stem as `expected_name`. -/
def parse_file (fs : FS) (filename : String) (cache : Cache) :
    Except PError (ChipDefinition × Cache) :=
  match fs filename with
  | none => .error .fileNotFound
  | some none => .error .formatError
  | some (some src) => .ok (parse_hdl src (some (fileStem filename)) cache)

/-- Translation of `HDLParser.get_chip_definition`: cache hit first; on a
miss, try to parse `"<name>.hdl"`; only `FileNotFoundError` is caught and
turned into `None`, any other parse failure propagates. -/
def get_chip_definition (fs : FS) (chip_name : String) (cache : Cache) :
    Except PError (Option ChipDefinition × Cache) :=
  match alistGet? cache chip_name with
  | some d => .ok (some d, cache)
  | none =>
      match parse_file fs (chip_name ++ ".hdl") cache with
      | .ok (d, cache1) => .ok (some d, cache1)
      | .error .fileNotFound => .ok (none, cache)
      | .error .formatError => .error .formatError

/-- Simulation-time exceptions: `unknownChip n` is the
`ValueError(f"Unknown chip type: {n}")` of `_simulate_custom`, `parseErr`
wraps a parse error propagating out of lazy resolution, and `outOfFuel`
models exhausting the Python call stack (possible only on cyclic chip
definitions). -/
inductive SimError where
  | unknownChip : String → SimError
  | parseErr : PError → SimError
  | outOfFuel : SimError
deriving DecidableEq, Repr

/-- The mutable state a `ChipSimulator` carries across calls: the parser's
`chips_cache` and the shared `signal_values` attribute. -/
structure SimSt where
  cache : Cache
  env : Env
deriving DecidableEq, Repr

/-- The simulator's `max_iterations` attribute. -/
def max_iterations : Nat := 100

/-- Translation of `ChipSimulator._evaluate_builtin`; Python truthiness of
an int is `(≠ 0)`. -/
def evaluate_builtin (chip_type : String) (inputs : Env) : Nat :=
  if chip_type = "Nand" then
    let a := alistGetD inputs "a" 0
    let b := alistGetD inputs "b" 0
    if a ≠ 0 ∧ b ≠ 0 then 0 else 1
  else if chip_type = "Not" then
    let in_val := alistGetD inputs "in" 0
    if in_val ≠ 0 then 0 else 1
  else if chip_type = "And" then
    let a := alistGetD inputs "a" 0
    let b := alistGetD inputs "b" 0
    if a ≠ 0 ∧ b ≠ 0 then 1 else 0
  else if chip_type = "Or" then
    let a := alistGetD inputs "a" 0
    let b := alistGetD inputs "b" 0
    if a ≠ 0 ∨ b ≠ 0 then 1 else 0
  else 0

/-- Translation of `ChipSimulator._simulate_builtin_chip`: dispatch on the
definition's name, with missing inputs defaulting to 0, returning the dict
`{"out": output_val}` (where `output_val` starts at 0 and is left there for
a name outside the four cases). -/
def simulate_builtin_chip (chip_def : ChipDefinition) (inputs : Env) : Env :=
  let output_val :=
    if chip_def.name = "Nand" then
      let a := alistGetD inputs "a" 0
      let b := alistGetD inputs "b" 0
      if a ≠ 0 ∧ b ≠ 0 then 0 else 1
    else if chip_def.name = "Not" then
      let in_val := alistGetD inputs "in" 0
      if in_val ≠ 0 then 0 else 1
    else if chip_def.name = "And" then
      let a := alistGetD inputs "a" 0
      let b := alistGetD inputs "b" 0
      if a ≠ 0 ∧ b ≠ 0 then 1 else 0
    else if chip_def.name = "Or" then
      let a := alistGetD inputs "a" 0
      let b := alistGetD inputs "b" 0
      if a ≠ 0 ∨ b ≠ 0 then 1 else 0
    else 0
  [("out", output_val)]

/-- The connection scan of `_simulate_builtin_part`: gather the input dict
(destinations `a`, `b`, `in`, values read from the environment with default
0) and remember the parent signal bound to the `out` destination (the last
such connection wins, as in the Python loop). -/
def builtinPartScan (env : Env) :
    List Connection → Env → Option String → Env × Option String
  | [], input_vals, output_signal => (input_vals, output_signal)
  | c :: rest, input_vals, output_signal =>
      if c.destination ∈ ["a", "b", "in"] then
        builtinPartScan env rest
          (alistSet input_vals c.destination (alistGetD env c.source 0))
          output_signal
      else if c.destination = "out" then
        builtinPartScan env rest input_vals (some c.source)
      else
        builtinPartScan env rest input_vals output_signal

/-- Translation of `ChipSimulator._simulate_builtin_part`: evaluate the
gate on the gathered inputs and write the result to the output signal when
it differs from the stored value; returns the changed flag and the updated
environment. -/
def simulate_builtin_part (part : ChipInstance) (env : Env) : Bool × Env :=
  let scan := builtinPartScan env part.connections [] none
  let output_val := evaluate_builtin part.chip_type scan.1
  match scan.2 with
  | none => (false, env)
  | some output_signal =>
      let old_val := alistGetD env output_signal 0
      if old_val ≠ output_val then (true, alistSet env output_signal output_val)
      else (false, env)

/-- The connection scan of `_simulate_custom`: build the sub-chip input
dict (destinations that are declared inputs of the sub-definition, read
from the parent environment with default 0) and the output-mapping dict
(destinations that are declared outputs, mapped to parent signal names);
the elif makes a destination that is both an input and an output count only
as an input. -/
def customPartScan (chip_def : ChipDefinition) (env : Env) :
    List Connection → Env → List (String × String) →
    Env × List (String × String)
  | [], sub_inputs, output_mappings => (sub_inputs, output_mappings)
  | c :: rest, sub_inputs, output_mappings =>
      if c.destination ∈ chip_def.inputs then
        customPartScan chip_def env rest
          (alistSet sub_inputs c.destination (alistGetD env c.source 0))
          output_mappings
      else if c.destination ∈ chip_def.outputs then
        customPartScan chip_def env rest sub_inputs
          (alistSet output_mappings c.destination c.source)
      else
        customPartScan chip_def env rest sub_inputs output_mappings

/-- The write-back loop of `_simulate_custom`: for each sub-chip output in
mapping order, write the returned value (default 0) to the parent signal
when it differs from the stored one, accumulating the changed flag. -/
def applyMappings (sub_outputs : Env) :
    List (String × String) → Bool × Env → Bool × Env
  | [], acc => acc
  | (sub_output, parent_signal) :: rest, (changed, env) =>
      let new_val := alistGetD sub_outputs sub_output 0
      let old_val := alistGetD env parent_signal 0
      if old_val ≠ new_val then
        applyMappings sub_outputs rest (true, alistSet env parent_signal new_val)
      else
        applyMappings sub_outputs rest (changed, env)

/-- The environment initialization of `ChipSimulator.simulate`: reset, bind
the given inputs, zero every internal pin, then zero every output pin not
already bound. -/
def initEnv (chip_def : ChipDefinition) (inputs : Env) : Env :=
  let e1 := inputs.foldl (fun e kv => alistSet e kv.1 kv.2) []
  let e2 := chip_def.internal_pins.foldl (fun e p => alistSet e p 0) e1
  chip_def.outputs.foldl
    (fun e p => match alistGet? e p with
      | some _ => e
      | none => alistSet e p 0) e2

/-- The output extraction of `ChipSimulator.simulate`: a dict binding each
declared output pin to its environment value, defaulting to 0. -/
def extractOutputs (chip_def : ChipDefinition) (env : Env) : Env :=
  chip_def.outputs.foldl (fun acc p => alistSet acc p (alistGetD env p 0)) []

/-- Translation of `ChipSimulator._simulate_custom`, parameterized by the
recursive `simulate` call (`recur` stands for `self.simulate`, which shares
`self.signal_values`: the sub-chip call receives, and replaces, the
caller's environment inside the threaded state). -/
def simulateCustomWith
    (recur : ChipDefinition → Env → SimSt → Except SimError (Env × SimSt))
    (fs : FS) (part : ChipInstance) (st : SimSt) :
    Except SimError (Bool × SimSt) :=
  match get_chip_definition fs part.chip_type st.cache with
  | .error e => .error (.parseErr e)
  | .ok (none, _) => .error (.unknownChip part.chip_type)
  | .ok (some chip_def, cache1) =>
      let scan := customPartScan chip_def st.env part.connections [] []
      match recur chip_def scan.1 ⟨cache1, st.env⟩ with
      | .error e => .error e
      | .ok (sub_outputs, st2) =>
          let res := applyMappings sub_outputs scan.2 (false, st2.env)
          .ok (res.1, ⟨st2.cache, res.2⟩)

/-- Translation of `ChipSimulator._simulate_part`: built-in chip types go
to the gate evaluator, everything else to the custom path. -/
def simulatePartWith
    (recur : ChipDefinition → Env → SimSt → Except SimError (Env × SimSt))
    (fs : FS) (part : ChipInstance) (st : SimSt) :
    Except SimError (Bool × SimSt) :=
  if (alistGet? built_in_chips part.chip_type).isSome then
    let res := simulate_builtin_part part st.env
    .ok (res.1, ⟨st.cache, res.2⟩)
  else
    simulateCustomWith recur fs part st

/-- One pass of the relaxation loop in `ChipSimulator.simulate`: evaluate
each part in declaration order, recording whether any of them changed a
signal. -/
def runPartsWith
    (simPart : ChipInstance → SimSt → Except SimError (Bool × SimSt)) :
    List ChipInstance → SimSt → Except SimError (Bool × SimSt)
  | [], st => .ok (false, st)
  | p :: rest, st =>
      match simPart p st with
      | .error e => .error e
      | .ok (c1, st1) =>
          match runPartsWith simPart rest st1 with
          | .error e => .error e
          | .ok (c2, st2) => .ok (c1 || c2, st2)

/-- The bounded relaxation loop of `ChipSimulator.simulate`: run passes
while the budget lasts, breaking as soon as a pass reports no change; an
exhausted budget returns the current state silently. -/
def runItersWith (passFn : SimSt → Except SimError (Bool × SimSt)) :
    Nat → SimSt → Except SimError SimSt
  | 0, st => .ok st
  | n + 1, st =>
      match passFn st with
      | .error e => .error e
      | .ok (changed, st1) =>
          if changed then runItersWith passFn n st1 else .ok st1

/-- Translation of `ChipSimulator.simulate`, with `fuel` bounding the
recursion depth.  A built-in definition (name among the four built-ins and
no parts) is evaluated directly, leaving the state untouched; otherwise the
shared environment is reset and the relaxation loop runs for at most
`max_iterations` passes, after which the declared outputs are read out of
whatever environment is current. -/
def simulate : Nat → FS → ChipDefinition → Env → SimSt →
    Except SimError (Env × SimSt)
  | fuel, fs, chip_def, inputs, st =>
      if (alistGet? built_in_chips chip_def.name).isSome ∧ chip_def.parts = []
      then .ok (simulate_builtin_chip chip_def inputs, st)
      else
        match fuel with
        | 0 => .error .outOfFuel
        | f + 1 =>
            let st0 : SimSt := ⟨st.cache, initEnv chip_def inputs⟩
            match runItersWith
                (runPartsWith (simulatePartWith (simulate f fs) fs)
                  chip_def.parts)
                max_iterations st0 with
            | .error e => .error e
            | .ok st1 => .ok (extractOutputs chip_def st1.env, st1)

/-- The outputs of a simulation run, discarding the final state. -/
def simOuts (fuel : Nat) (fs : FS) (chip_def : ChipDefinition) (inputs : Env)
    (st : SimSt) : Except SimError Env :=
  (simulate fuel fs chip_def inputs st).map Prod.fst

/-- An empty ambient file namespace. -/
def noFiles : FS := fun _ => none

/-- Modelled from the spec: one part step of the composite evaluation
algorithm of section 4.2, over a local environment.  A primitive part is the
gate evaluator; a composite part builds its sub-input environment from the
parent environment, recursively simulates the sub-chip in an independent
environment (`recur` returns only outputs and registry, touching no
enclosing environment), and writes the returned sub-outputs back to the
parent signals. -/
def specPartWith
    (recur : ChipDefinition → Env → Cache → Except SimError (Env × Cache))
    (fs : FS) (part : ChipInstance) (env : Env) (cache : Cache) :
    Except SimError (Bool × Env × Cache) :=
  if (alistGet? built_in_chips part.chip_type).isSome then
    let res := simulate_builtin_part part env
    .ok (res.1, res.2, cache)
  else
    match get_chip_definition fs part.chip_type cache with
    | .error e => .error (.parseErr e)
    | .ok (none, _) => .error (.unknownChip part.chip_type)
    | .ok (some chip_def, cache1) =>
        let scan := customPartScan chip_def env part.connections [] []
        match recur chip_def scan.1 cache1 with
        | .error e => .error e
        | .ok (sub_outputs, cache2) =>
            let res := applyMappings sub_outputs scan.2 (false, env)
            .ok (res.1, res.2, cache2)

/-- Modelled from the spec: a full pass over the parts in declaration
order, accumulating the changed flag, over a local environment. -/
def specPassWith
    (recur : ChipDefinition → Env → Cache → Except SimError (Env × Cache))
    (fs : FS) : List ChipInstance → Env → Cache →
    Except SimError (Bool × Env × Cache)
  | [], env, cache => .ok (false, env, cache)
  | p :: rest, env, cache =>
      match specPartWith recur fs p env cache with
      | .error e => .error e
      | .ok (c1, env1, cache1) =>
          match specPassWith recur fs rest env1 cache1 with
          | .error e => .error e
          | .ok (c2, env2, cache2) => .ok (c1 || c2, env2, cache2)

/-- Modelled from the spec: the capped relaxation loop of section 4.2 over
a local environment, stopping early after a pass with no change. -/
def specItersWith
    (recur : ChipDefinition → Env → Cache → Except SimError (Env × Cache))
    (fs : FS) (parts : List ChipInstance) :
    Nat → Env → Cache → Except SimError (Env × Cache)
  | 0, env, cache => .ok (env, cache)
  | n + 1, env, cache =>
      match specPassWith recur fs parts env cache with
      | .error e => .error e
      | .ok (changed, env1, cache1) =>
          if changed then specItersWith recur fs parts n env1 cache1
          else .ok (env1, cache1)

/-- Modelled from the spec: the `simulate` contract of sections 4.2 and 5,
in which each call owns its own signal-value environment and recursive
sub-chip calls never share or alias the parent's; only the registry
outlives a call.  The algorithm is otherwise that of section 4.2: primitive
defs use the truth table, composite defs initialize a fresh environment and
relax to a fixed point under the same iteration cap. -/
def simulateSpec : Nat → FS → ChipDefinition → Env → Cache →
    Except SimError (Env × Cache)
  | fuel, fs, chip_def, inputs, cache =>
      if (alistGet? built_in_chips chip_def.name).isSome ∧ chip_def.parts = []
      then .ok (simulate_builtin_chip chip_def inputs, cache)
      else
        match fuel with
        | 0 => .error .outOfFuel
        | f + 1 =>
            match specItersWith (simulateSpec f fs) fs chip_def.parts
                max_iterations (initEnv chip_def inputs) cache with
            | .error e => .error e
            | .ok (env1, cache1) =>
                .ok (extractOutputs chip_def env1, cache1)

/-- The outputs of a spec-modelled simulation run, discarding the registry. -/
def specOuts (fuel : Nat) (fs : FS) (chip_def : ChipDefinition) (inputs : Env)
    (cache : Cache) : Except SimError Env :=
  (simulateSpec fuel fs chip_def inputs cache).map Prod.fst

/-- The Xor chip built from Not, And and Or, exactly as in the repository's
Xor source text (and its `test_complex_circuit` fixture). -/
def xorDef : ChipDefinition :=
  ⟨"Xor", ["a", "b"], ["out"],
    [⟨"Not", "Not_0", [⟨"a", "in"⟩, ⟨"nota", "out"⟩]⟩,
     ⟨"Not", "Not_1", [⟨"b", "in"⟩, ⟨"notb", "out"⟩]⟩,
     ⟨"And", "And_2", [⟨"a", "a"⟩, ⟨"notb", "b"⟩, ⟨"aAndNotb", "out"⟩]⟩,
     ⟨"And", "And_3", [⟨"nota", "a"⟩, ⟨"b", "b"⟩, ⟨"notaAndb", "out"⟩]⟩,
     ⟨"Or", "Or_4", [⟨"aAndNotb", "a"⟩, ⟨"notaAndb", "b"⟩, ⟨"out", "out"⟩]⟩],
    ["nota", "notb", "aAndNotb", "notaAndb"]⟩

/-- The HalfAdder chip with an Xor sub-chip driving `sum` and an And gate
driving `carry`, exactly as in the repository's HalfAdder source text. -/
def halfAdderDef : ChipDefinition :=
  ⟨"HalfAdder", ["a", "b"], ["sum", "carry"],
    [⟨"Xor", "Xor_0", [⟨"a", "a"⟩, ⟨"b", "b"⟩, ⟨"sum", "out"⟩]⟩,
     ⟨"And", "And_1", [⟨"a", "a"⟩, ⟨"b", "b"⟩, ⟨"carry", "out"⟩]⟩],
    []⟩

/-- A registry in which the Xor chip has been registered (as after parsing
its source), so the HalfAdder's Xor part resolves from the cache. -/
def cacheXor : Cache := alistSet initCache "Xor" xorDef

/-- The And chip built from Nand followed by Not, exactly as in the
repository's And source text. -/
def andComposite : ChipDefinition :=
  ⟨"And", ["a", "b"], ["out"],
    [⟨"Nand", "Nand_0", [⟨"a", "a"⟩, ⟨"b", "b"⟩, ⟨"nandOut", "out"⟩]⟩,
     ⟨"Not", "Not_1", [⟨"nandOut", "in"⟩, ⟨"out", "out"⟩]⟩],
    ["nandOut"]⟩

/-- The stable environment reached when simulating the HalfAdder on inputs
(0,0): the Xor sub-chip's final environment (the shared-environment engine
leaves it in place), with neither output ever written. -/
def haEnv00 : Env :=
  [("a", 0), ("b", 0), ("nota", 1), ("notb", 1), ("aAndNotb", 0),
   ("notaAndb", 0), ("out", 0)]

/-- The spin state of the HalfAdder on inputs (0,1). -/
def haEnv01 : Env :=
  [("a", 0), ("b", 1), ("nota", 1), ("notb", 0), ("aAndNotb", 0),
   ("notaAndb", 1), ("out", 1), ("sum", 1)]

/-- The spin state of the HalfAdder on inputs (1,0). -/
def haEnv10 : Env :=
  [("a", 1), ("b", 0), ("nota", 0), ("notb", 1), ("aAndNotb", 1),
   ("notaAndb", 0), ("out", 1), ("sum", 1)]

/-- The spin state of the HalfAdder on inputs (1,1). -/
def haEnv11 : Env :=
  [("a", 1), ("b", 1), ("nota", 0), ("notb", 0), ("aAndNotb", 0),
   ("notaAndb", 0), ("out", 0), ("carry", 1)]

/-- The stable environment of the Nand-Not And chip on inputs (a,b): state
reached after its first relaxation pass. -/
def acEnv (a b nandOut out : Nat) : Env :=
  [("a", a), ("b", b), ("nandOut", nandOut), ("out", out)]

/-- The stable environment of the Xor chip on inputs (a,b). -/
def xorEnv (a b nota notb aAndNotb notaAndb out : Nat) : Env :=
  [("a", a), ("b", b), ("nota", nota), ("notb", notb),
   ("aAndNotb", aAndNotb), ("notaAndb", notaAndb), ("out", out)]

/-- A chip referencing the unregistered type Mystery, for the C5 witness. -/
def mysteryDef : ChipDefinition :=
  ⟨"Top", ["a"], ["o"], [⟨"Mystery", "Mystery_0", []⟩], []⟩

/-- The Wire chip: two Not parts in series, a composite identity. -/
def wireDef : ChipDefinition :=
  ⟨"Wire", ["x"], ["y"],
    [⟨"Not", "Not_0", [⟨"x", "in"⟩, ⟨"nx", "out"⟩]⟩,
     ⟨"Not", "Not_1", [⟨"nx", "in"⟩, ⟨"y", "out"⟩]⟩],
    ["nx"]⟩

/-- A chip wiring its input through a Wire sub-chip into a Not gate: its
intended output is the negation of its input. -/
def pwDef : ChipDefinition :=
  ⟨"Pw", ["a"], ["out"],
    [⟨"Wire", "Wire_0", [⟨"a", "x"⟩, ⟨"w", "y"⟩]⟩,
     ⟨"Not", "Not_1", [⟨"w", "in"⟩, ⟨"out", "out"⟩]⟩],
    ["w"]⟩

/-- A registry in which the Wire chip has been registered. -/
def cacheW : Cache := alistSet initCache "Wire" wireDef

/-- A file namespace holding one file, Bad.hdl, whose text has no
recognizable CHIP block. -/
def badFs : FS := fun f => if f = "Bad.hdl" then some none else none

/-- The source text of Bar.hdl in the C9 scenario: a Bar chip (with an
unused second input) computing the double negation of x. -/
def srcB1 : HDLSource :=
  ⟨"Bar", ["x", "w"], ["q"],
    [("Not", [("in", "x"), ("out", "t")]), ("Not", [("in", "t"), ("out", "q")])]⟩

/-- The source text of Foo.hdl in the C9 scenario: its CHIP header names
Bar, not Foo, and it computes the negation of x. -/
def srcB2 : HDLSource :=
  ⟨"Bar", ["x", "w"], ["q"], [("Not", [("in", "x"), ("out", "q")])]⟩

/-- The ambient file namespace of the C9 scenario. -/
def fs9 : FS := fun f =>
  if f = "Bar.hdl" then some (some srcB1)
  else if f = "Foo.hdl" then some (some srcB2)
  else none

/-- The top chip of the C9 scenario: a Bar part, a Foo part (whose lazy
load re-keys the registry entry Bar), and an And gate reading the Foo
part's output. -/
def p9 : ChipDefinition :=
  ⟨"P", ["x", "w"], ["res"],
    [⟨"Bar", "Bar_0", [⟨"x", "x"⟩, ⟨"w", "w"⟩, ⟨"m", "q"⟩]⟩,
     ⟨"Foo", "Foo_1", [⟨"w", "x"⟩, ⟨"y", "q"⟩]⟩,
     ⟨"And", "And_2", [⟨"y", "a"⟩, ⟨"y", "b"⟩, ⟨"res", "out"⟩]⟩],
    ["m", "y"]⟩

/-- The definition parsed from Foo.hdl: a chip named Bar. -/
def barB2 : ChipDefinition :=
  ⟨"Bar", ["x", "w"], ["q"],
    [⟨"Not", "Not_0", [⟨"x", "in"⟩, ⟨"q", "out"⟩]⟩], []⟩

/-- The registry after the first C9 simulation: the lazy loads left the
entry Bar re-keyed to the Foo.hdl definition. -/
def cache9 : Cache := initCache ++ [("Bar", barB2)]

/-- The outputs of a simulation result, an empty dict on error. -/
def outsOf : Except SimError (Env × SimSt) → Env
  | .ok r => r.1
  | .error _ => []

/-- Stepping the relaxation loop: a pass that reports a change hands the
remaining budget to its resulting state. -/
theorem runIters_step (passFn : SimSt → Except SimError (Bool × SimSt))
    (st st1 : SimSt) (n : Nat) (h : passFn st = .ok (true, st1)) :
    runItersWith passFn (n + 1) st = runItersWith passFn n st1 := by
  simp [runItersWith, h]

/-- Stopping the relaxation loop: a pass that reports no change ends the
loop at its resulting state. -/
theorem runIters_stop (passFn : SimSt → Except SimError (Bool × SimSt))
    (st st1 : SimSt) (n : Nat) (h : passFn st = .ok (false, st1)) :
    runItersWith passFn (n + 1) st = .ok st1 := by
  simp [runItersWith, h]

/-- A state on which a pass keeps reporting a change while reproducing the
state exactly makes the loop spin in place until the budget runs out,
finishing at that state. -/
theorem runIters_stuck (passFn : SimSt → Except SimError (Bool × SimSt))
    (st : SimSt) (h : passFn st = .ok (true, st)) :
    ∀ n, runItersWith passFn n st = .ok st
  | 0 => rfl
  | n + 1 => by
      rw [runIters_step passFn st st n h, runIters_stuck passFn st h n]

/-- Unfolding `simulate` on a non-primitive definition: reset the shared
environment, run the capped relaxation loop, read the outputs back. -/
theorem simulate_composite_eq (f : Nat) (fs : FS) (chip_def : ChipDefinition)
    (inputs : Env) (st : SimSt)
    (h : ¬((alistGet? built_in_chips chip_def.name).isSome ∧
            chip_def.parts = [])) :
    simulate (f + 1) fs chip_def inputs st =
      match runItersWith
          (runPartsWith (simulatePartWith (simulate f fs) fs) chip_def.parts)
          max_iterations ⟨st.cache, initEnv chip_def inputs⟩ with
      | .error e => .error e
      | .ok st1 => .ok (extractOutputs chip_def st1.env, st1) := by
  rw [simulate]
  simp [h]

/-- A composite simulation whose first pass already reports no change stops
there and reads the outputs from that state. -/
theorem simulate_stable (f : Nat) (fs : FS) (chip_def : ChipDefinition)
    (inputs : Env) (st S1 : SimSt)
    (hcomp : ¬((alistGet? built_in_chips chip_def.name).isSome ∧
                chip_def.parts = []))
    (h1 : runPartsWith (simulatePartWith (simulate f fs) fs) chip_def.parts
        ⟨st.cache, initEnv chip_def inputs⟩ = .ok (false, S1)) :
    simulate (f + 1) fs chip_def inputs st =
      .ok (extractOutputs chip_def S1.env, S1) := by
  rw [simulate_composite_eq f fs chip_def inputs st hcomp]
  have h100 : max_iterations = 99 + 1 := rfl
  rw [h100, runIters_stop _ _ _ 99 h1]

/-- A composite simulation whose first pass reaches a changed-but-identical
state spins there for the whole budget and reads the outputs from that
state: the silent-truncation path of the relaxation loop. -/
theorem simulate_capped (f : Nat) (fs : FS) (chip_def : ChipDefinition)
    (inputs : Env) (st S1 : SimSt)
    (hcomp : ¬((alistGet? built_in_chips chip_def.name).isSome ∧
                chip_def.parts = []))
    (h1 : runPartsWith (simulatePartWith (simulate f fs) fs) chip_def.parts
        ⟨st.cache, initEnv chip_def inputs⟩ = .ok (true, S1))
    (h2 : runPartsWith (simulatePartWith (simulate f fs) fs) chip_def.parts
        S1 = .ok (true, S1)) :
    simulate (f + 1) fs chip_def inputs st =
      .ok (extractOutputs chip_def S1.env, S1) := by
  rw [simulate_composite_eq f fs chip_def inputs st hcomp]
  have h100 : max_iterations = 99 + 1 := rfl
  rw [h100, runIters_step _ _ _ 99 h1, runIters_stuck _ _ h2 99]

/-- A composite simulation whose first pass reports a change and whose
second pass then reports no change stops after that second pass. -/
theorem simulate_two_pass (f : Nat) (fs : FS) (chip_def : ChipDefinition)
    (inputs : Env) (st S1 S2 : SimSt)
    (hcomp : ¬((alistGet? built_in_chips chip_def.name).isSome ∧
                chip_def.parts = []))
    (h1 : runPartsWith (simulatePartWith (simulate f fs) fs) chip_def.parts
        ⟨st.cache, initEnv chip_def inputs⟩ = .ok (true, S1))
    (h2 : runPartsWith (simulatePartWith (simulate f fs) fs) chip_def.parts
        S1 = .ok (false, S2)) :
    simulate (f + 1) fs chip_def inputs st =
      .ok (extractOutputs chip_def S2.env, S2) := by
  rw [simulate_composite_eq f fs chip_def inputs st hcomp]
  have h100 : max_iterations = 98 + 1 + 1 := rfl
  rw [h100, runIters_step _ _ _ (98 + 1) h1, runIters_stop _ _ _ 98 h2]

/-- A composite simulation that takes two changing passes to a state that a
further pass reproduces with the changed flag still set: the loop spins
there for the rest of the budget. -/
theorem simulate_capped2 (f : Nat) (fs : FS) (chip_def : ChipDefinition)
    (inputs : Env) (st S1 S2 : SimSt)
    (hcomp : ¬((alistGet? built_in_chips chip_def.name).isSome ∧
                chip_def.parts = []))
    (h1 : runPartsWith (simulatePartWith (simulate f fs) fs) chip_def.parts
        ⟨st.cache, initEnv chip_def inputs⟩ = .ok (true, S1))
    (h2 : runPartsWith (simulatePartWith (simulate f fs) fs) chip_def.parts
        S1 = .ok (true, S2))
    (h3 : runPartsWith (simulatePartWith (simulate f fs) fs) chip_def.parts
        S2 = .ok (true, S2)) :
    simulate (f + 1) fs chip_def inputs st =
      .ok (extractOutputs chip_def S2.env, S2) := by
  rw [simulate_composite_eq f fs chip_def inputs st hcomp]
  have h100 : max_iterations = 98 + 1 + 1 := rfl
  rw [h100, runIters_step _ _ _ (98 + 1) h1, runIters_step _ _ _ 98 h2,
    runIters_stuck _ _ h3 98]

/-- C2: For a HalfAdder chip whose parts are an Xor sub-chip driving `sum`
and an And gate driving `carry`, simulate over all 4 input combinations
(a,b) in the booleans returns (sum,carry) = (0,0), (1,0), (1,0), (0,1) for
(0,0), (0,1), (1,0), (1,1) respectively. -/
theorem C2_halfadder_outputs :
    simOuts 2 noFiles halfAdderDef [("a", 0), ("b", 0)] ⟨cacheXor, []⟩ =
      .ok [("sum", 0), ("carry", 0)] ∧
    simOuts 2 noFiles halfAdderDef [("a", 0), ("b", 1)] ⟨cacheXor, []⟩ =
      .ok [("sum", 1), ("carry", 0)] ∧
    simOuts 2 noFiles halfAdderDef [("a", 1), ("b", 0)] ⟨cacheXor, []⟩ =
      .ok [("sum", 1), ("carry", 0)] ∧
    simOuts 2 noFiles halfAdderDef [("a", 1), ("b", 1)] ⟨cacheXor, []⟩ =
      .ok [("sum", 0), ("carry", 1)] := by
  refine ⟨?_, ?_, ?_, ?_⟩
  · have h := simulate_stable 1 noFiles halfAdderDef [("a", 0), ("b", 0)]
      ⟨cacheXor, []⟩ ⟨cacheXor, haEnv00⟩ (by decide) rfl
    simp [simOuts, h]
    rfl
  · have h := simulate_capped 1 noFiles halfAdderDef [("a", 0), ("b", 1)]
      ⟨cacheXor, []⟩ ⟨cacheXor, haEnv01⟩ (by decide) rfl rfl
    simp [simOuts, h]
    rfl
  · have h := simulate_capped 1 noFiles halfAdderDef [("a", 1), ("b", 0)]
      ⟨cacheXor, []⟩ ⟨cacheXor, haEnv10⟩ (by decide) rfl rfl
    simp [simOuts, h]
    rfl
  · have h := simulate_capped 1 noFiles halfAdderDef [("a", 1), ("b", 1)]
      ⟨cacheXor, []⟩ ⟨cacheXor, haEnv11⟩ (by decide) rfl rfl
    simp [simOuts, h]
    rfl

/-- C3: Composition correctness: for every input pair (a,b) of bits,
simulating the And chip defined as Nand followed by Not returns the same
output as the primitive And truth table, and simulating the Xor chip built
from Not, And and Or parts returns 0, 1, 1, 0 on (0,0), (0,1), (1,0),
(1,1). -/
theorem C3_composition_correctness :
    (simOuts 1 noFiles andComposite [("a", 0), ("b", 0)] ⟨initCache, []⟩ =
       simOuts 1 noFiles andChip [("a", 0), ("b", 0)] ⟨initCache, []⟩ ∧
     simOuts 1 noFiles andComposite [("a", 0), ("b", 1)] ⟨initCache, []⟩ =
       simOuts 1 noFiles andChip [("a", 0), ("b", 1)] ⟨initCache, []⟩ ∧
     simOuts 1 noFiles andComposite [("a", 1), ("b", 0)] ⟨initCache, []⟩ =
       simOuts 1 noFiles andChip [("a", 1), ("b", 0)] ⟨initCache, []⟩ ∧
     simOuts 1 noFiles andComposite [("a", 1), ("b", 1)] ⟨initCache, []⟩ =
       simOuts 1 noFiles andChip [("a", 1), ("b", 1)] ⟨initCache, []⟩) ∧
    (simOuts 1 noFiles xorDef [("a", 0), ("b", 0)] ⟨initCache, []⟩ =
       .ok [("out", 0)] ∧
     simOuts 1 noFiles xorDef [("a", 0), ("b", 1)] ⟨initCache, []⟩ =
       .ok [("out", 1)] ∧
     simOuts 1 noFiles xorDef [("a", 1), ("b", 0)] ⟨initCache, []⟩ =
       .ok [("out", 1)] ∧
     simOuts 1 noFiles xorDef [("a", 1), ("b", 1)] ⟨initCache, []⟩ =
       .ok [("out", 0)]) := by
  refine ⟨⟨?_, ?_, ?_, ?_⟩, ⟨?_, ?_, ?_, ?_⟩⟩
  · have h := simulate_two_pass 0 noFiles andComposite [("a", 0), ("b", 0)]
      ⟨initCache, []⟩ ⟨initCache, acEnv 0 0 1 0⟩ ⟨initCache, acEnv 0 0 1 0⟩
      (by decide) rfl rfl
    simp [simOuts, h]
    rfl
  · have h := simulate_two_pass 0 noFiles andComposite [("a", 0), ("b", 1)]
      ⟨initCache, []⟩ ⟨initCache, acEnv 0 1 1 0⟩ ⟨initCache, acEnv 0 1 1 0⟩
      (by decide) rfl rfl
    simp [simOuts, h]
    rfl
  · have h := simulate_two_pass 0 noFiles andComposite [("a", 1), ("b", 0)]
      ⟨initCache, []⟩ ⟨initCache, acEnv 1 0 1 0⟩ ⟨initCache, acEnv 1 0 1 0⟩
      (by decide) rfl rfl
    simp [simOuts, h]
    rfl
  · have h := simulate_two_pass 0 noFiles andComposite [("a", 1), ("b", 1)]
      ⟨initCache, []⟩ ⟨initCache, acEnv 1 1 0 1⟩ ⟨initCache, acEnv 1 1 0 1⟩
      (by decide) rfl rfl
    simp [simOuts, h]
    rfl
  · have h := simulate_two_pass 0 noFiles xorDef [("a", 0), ("b", 0)]
      ⟨initCache, []⟩ ⟨initCache, xorEnv 0 0 1 1 0 0 0⟩
      ⟨initCache, xorEnv 0 0 1 1 0 0 0⟩ (by decide) rfl rfl
    simp [simOuts, h]
    rfl
  · have h := simulate_two_pass 0 noFiles xorDef [("a", 0), ("b", 1)]
      ⟨initCache, []⟩ ⟨initCache, xorEnv 0 1 1 0 0 1 1⟩
      ⟨initCache, xorEnv 0 1 1 0 0 1 1⟩ (by decide) rfl rfl
    simp [simOuts, h]
    rfl
  · have h := simulate_two_pass 0 noFiles xorDef [("a", 1), ("b", 0)]
      ⟨initCache, []⟩ ⟨initCache, xorEnv 1 0 0 1 1 0 1⟩
      ⟨initCache, xorEnv 1 0 0 1 1 0 1⟩ (by decide) rfl rfl
    simp [simOuts, h]
    rfl
  · have h := simulate_stable 0 noFiles xorDef [("a", 1), ("b", 1)]
      ⟨initCache, []⟩ ⟨initCache, xorEnv 1 1 0 0 0 0 0⟩ (by decide) rfl
    simp [simOuts, h]
    rfl

/-- Unfolding `simulate` on a built-in definition (name among the four
built-ins and no parts): the gate is evaluated directly from the input
dict, and the threaded state — registry and shared environment alike — is
left untouched. -/
theorem simulate_builtin_eq (fuel : Nat) (fs : FS) (chip_def : ChipDefinition)
    (inputs : Env) (st : SimSt)
    (h : (alistGet? built_in_chips chip_def.name).isSome ∧
          chip_def.parts = []) :
    simulate fuel fs chip_def inputs st =
      .ok (simulate_builtin_chip chip_def inputs, st) := by
  rw [simulate.eq_def]
  exact if_pos h

/-- C4: Primitive truth tables: for every input assignment, simulating the
primitive definitions yields a dict binding `out` to a bit with out = 0 iff
a and b are truthy for Nand, out = 1 iff a and b are truthy for And, out =
1 iff a or b is truthy for Or, and out = 0 iff `in` is nonzero for Not;
reading each pin with `alistGetD _ _ 0` is exactly the engine's treatment
of a missing input pin as 0 before evaluation.  The state is untouched. -/
theorem C4_primitive_truth_tables :
    ∀ (fuel : Nat) (fs : FS) (st : SimSt) (ins : Env),
      (∃ v, simulate fuel fs nandChip ins st = .ok ([("out", v)], st) ∧
        v ≤ 1 ∧ (v = 0 ↔ (alistGetD ins "a" 0 ≠ 0 ∧ alistGetD ins "b" 0 ≠ 0))) ∧
      (∃ v, simulate fuel fs andChip ins st = .ok ([("out", v)], st) ∧
        v ≤ 1 ∧ (v = 1 ↔ (alistGetD ins "a" 0 ≠ 0 ∧ alistGetD ins "b" 0 ≠ 0))) ∧
      (∃ v, simulate fuel fs orChip ins st = .ok ([("out", v)], st) ∧
        v ≤ 1 ∧ (v = 1 ↔ (alistGetD ins "a" 0 ≠ 0 ∨ alistGetD ins "b" 0 ≠ 0))) ∧
      (∃ v, simulate fuel fs notChip ins st = .ok ([("out", v)], st) ∧
        v ≤ 1 ∧ (v = 0 ↔ alistGetD ins "in" 0 ≠ 0)) := by
  intro fuel fs st ins
  refine
    ⟨⟨if alistGetD ins "a" 0 ≠ 0 ∧ alistGetD ins "b" 0 ≠ 0 then 0 else 1,
        ?_, ?_, ?_⟩,
      ⟨if alistGetD ins "a" 0 ≠ 0 ∧ alistGetD ins "b" 0 ≠ 0 then 1 else 0,
        ?_, ?_, ?_⟩,
      ⟨if alistGetD ins "a" 0 ≠ 0 ∨ alistGetD ins "b" 0 ≠ 0 then 1 else 0,
        ?_, ?_, ?_⟩,
      ⟨if alistGetD ins "in" 0 ≠ 0 then 0 else 1, ?_, ?_, ?_⟩⟩
  · rw [simulate_builtin_eq fuel fs nandChip ins st (by decide)]
    simp [simulate_builtin_chip, nandChip]
  · split <;> norm_num
  · split <;> simp_all
  · rw [simulate_builtin_eq fuel fs andChip ins st (by decide)]
    simp [simulate_builtin_chip, andChip]
  · split <;> norm_num
  · split <;> simp_all
  · rw [simulate_builtin_eq fuel fs orChip ins st (by decide)]
    simp [simulate_builtin_chip, orChip]
  · split <;> norm_num
  · split <;> simp_all
  · rw [simulate_builtin_eq fuel fs notChip ins st (by decide)]
    simp [simulate_builtin_chip, notChip]
  · split <;> norm_num
  · split <;> simp_all

/-- C5: Unknown-type failure: simulating a chip whose (first) part has a
chip-type name that is neither one of the four primitives nor resolvable
through `get_chip_definition` — no registry entry and no loadable source
unit, the missing file's `FileNotFoundError` being folded into the same
outcome — fails with the unknown-chip error carrying the offending type
name. -/
theorem C5_unknown_chip_error :
    ∀ (f : Nat) (fs : FS) (chip_def : ChipDefinition) (ins : Env) (c : Cache)
      (e : Env) (p : ChipInstance) (rest : List ChipInstance),
      chip_def.parts = p :: rest →
      alistGet? built_in_chips p.chip_type = none →
      alistGet? c p.chip_type = none →
      fs (p.chip_type ++ ".hdl") = none →
      simulate (f + 1) fs chip_def ins ⟨c, e⟩ =
        .error (.unknownChip p.chip_type) := by
  intro f fs chip_def ins c e p rest hparts hbuiltin hcache hfile
  have hcomp : ¬((alistGet? built_in_chips chip_def.name).isSome ∧
      chip_def.parts = []) := by
    rw [hparts]
    simp
  rw [simulate_composite_eq f fs chip_def ins ⟨c, e⟩ hcomp]
  have h100 : max_iterations = 99 + 1 := rfl
  rw [h100, hparts]
  simp [runItersWith, runPartsWith, simulatePartWith, simulateCustomWith,
    get_chip_definition, parse_file, hbuiltin, hcache, hfile]

/-- Witness for C5 at a concrete chip: the Mystery part type is not a
primitive, not cached, and has no source file, so simulation fails with the
unknown-chip error naming Mystery. -/
theorem C5_witness :
    simulate 1 noFiles mysteryDef [] ⟨initCache, []⟩ =
      .error (.unknownChip "Mystery") :=
  C5_unknown_chip_error 0 noFiles mysteryDef [] initCache []
    ⟨"Mystery", "Mystery_0", []⟩ [] rfl rfl rfl rfl

/-- C6: Bounded relaxation with silent truncation: the relaxation loop
stops right after any pass over the parts (evaluated in declaration order
by `runPartsWith`) that reports no signal change; an exhausted pass budget
returns the current state without raising; and a composite simulate call
runs that loop with a budget of `max_iterations` = 100 passes and then
returns the output pins' current environment values. -/
theorem C6_relaxation_loop :
    (∀ (passFn : SimSt → Except SimError (Bool × SimSt)) (st st1 : SimSt)
        (n : Nat), passFn st = .ok (false, st1) →
        runItersWith passFn (n + 1) st = .ok st1) ∧
    (∀ (passFn : SimSt → Except SimError (Bool × SimSt)) (st : SimSt),
        runItersWith passFn 0 st = .ok st) ∧
    max_iterations = 100 ∧
    (∀ (f : Nat) (fs : FS) (chip_def : ChipDefinition) (inputs : Env)
        (st : SimSt),
        ¬((alistGet? built_in_chips chip_def.name).isSome ∧
            chip_def.parts = []) →
        simulate (f + 1) fs chip_def inputs st =
          match runItersWith
              (runPartsWith (simulatePartWith (simulate f fs) fs)
                chip_def.parts)
              max_iterations ⟨st.cache, initEnv chip_def inputs⟩ with
          | .error e => .error e
          | .ok st1 => .ok (extractOutputs chip_def st1.env, st1)) :=
  ⟨fun passFn st st1 n h => runIters_stop passFn st st1 n h,
   fun _ _ => rfl,
   rfl,
   fun f fs chip_def inputs st h =>
     simulate_composite_eq f fs chip_def inputs st h⟩

/-- Witness for C6 at concrete inputs: a no-change pass ends a 7-pass
budget immediately, and the composite unfolding holds for the Nand-Not And
chip. -/
theorem C6_witness :
    runItersWith (fun s => .ok (false, s)) (6 + 1) ⟨initCache, []⟩ =
      .ok ⟨initCache, []⟩ ∧
    simulate (0 + 1) noFiles andComposite [("a", 1), ("b", 1)]
        ⟨initCache, []⟩ =
      match runItersWith
          (runPartsWith (simulatePartWith (simulate 0 noFiles) noFiles)
            andComposite.parts)
          max_iterations ⟨initCache, initEnv andComposite [("a", 1), ("b", 1)]⟩
          with
      | .error e => .error e
      | .ok st1 => .ok (extractOutputs andComposite st1.env, st1) :=
  ⟨C6_relaxation_loop.1 (fun s => .ok (false, s)) ⟨initCache, []⟩
      ⟨initCache, []⟩ 6 rfl,
   C6_relaxation_loop.2.2.2 0 noFiles andComposite [("a", 1), ("b", 1)]
      ⟨initCache, []⟩ (by decide)⟩

/-- Membership after a set insert. -/
theorem insertSet_mem (l : List String) (s a : String) :
    a ∈ insertSet l s ↔ a ∈ l ∨ a = s := by
  unfold insertSet
  split
  · rename_i hs
    exact ⟨Or.inl, fun h => h.elim id (fun he => he ▸ hs)⟩
  · simp [List.mem_append]

/-- Membership after the internal-pin bookkeeping for one connection: a
name is added exactly when it is the connection's source and is neither an
input nor an output of the enclosing chip. -/
theorem trackInternal_mem (inputs outputs : List String) (acc : List String)
    (c : Connection) (a : String) :
    a ∈ trackInternal inputs outputs acc c ↔
      a ∈ acc ∨ (c.source = a ∧ a ∉ inputs ∧ a ∉ outputs) := by
  simp only [trackInternal]
  split_ifs with h2 h1 h1
  · rw [insertSet_mem, insertSet_mem]
    constructor
    · rintro ((h | rfl) | rfl)
      · exact Or.inl h
      · exact Or.inr ⟨rfl, h2.2.1, h2.2.2⟩
      · exact Or.inr ⟨rfl, h2.2.1, h2.2.2⟩
    · rintro (h | ⟨rfl, _, _⟩)
      · exact Or.inl (Or.inl h)
      · exact Or.inl (Or.inr rfl)
  · exact absurd ⟨h2.2.1, h2.2.2⟩ h1
  · rw [insertSet_mem]
    constructor
    · rintro (h | rfl)
      · exact Or.inl h
      · exact Or.inr ⟨rfl, h1.1, h1.2⟩
    · rintro (h | ⟨rfl, _, _⟩)
      · exact Or.inl h
      · exact Or.inr rfl
  · constructor
    · exact Or.inl
    · rintro (h | ⟨rfl, hin, hout⟩)
      · exact h
      · exact absurd ⟨hin, hout⟩ h1

/-- Membership after the internal-pin bookkeeping over a whole connection
list. -/
theorem foldl_trackInternal_mem (inputs outputs : List String)
    (conns : List Connection) (acc : List String) (a : String) :
    a ∈ conns.foldl (trackInternal inputs outputs) acc ↔
      a ∈ acc ∨ ∃ c ∈ conns, c.source = a ∧ a ∉ inputs ∧ a ∉ outputs := by
  induction conns generalizing acc with
  | nil => simp
  | cons c rest ih =>
      rw [List.foldl_cons, ih, trackInternal_mem]
      simp only [List.mem_cons]
      constructor
      · rintro ((h | h) | ⟨c1, hc1, h⟩)
        · exact Or.inl h
        · exact Or.inr ⟨c, Or.inl rfl, h⟩
        · exact Or.inr ⟨c1, Or.inr hc1, h⟩
      · rintro (h | ⟨c1, (rfl | hc1), h⟩)
        · exact Or.inl (Or.inl h)
        · exact Or.inl (Or.inr h)
        · exact Or.inr ⟨c1, hc1, h⟩

/-- Membership in the internal-pin set built by the part loop: a name from
the accumulator, or the source of some connection of some processed part
match that is neither an input nor an output. -/
theorem parse_parts_loop_internal_mem (inputs outputs : List String)
    (raw : List RawPart) (parts : List ChipInstance) (internal : List String)
    (a : String) :
    a ∈ (parse_parts_loop inputs outputs raw parts internal).2 ↔
      a ∈ internal ∨
        ∃ rp ∈ raw, ∃ pr ∈ rp.2, pr.2 = a ∧ a ∉ inputs ∧ a ∉ outputs := by
  induction raw generalizing parts internal with
  | nil => simp [parse_parts_loop]
  | cons rp rest ih =>
      obtain ⟨ty, rawConns⟩ := rp
      rw [parse_parts_loop, ih, foldl_trackInternal_mem]
      simp only [List.mem_cons, parse_connections, List.mem_map]
      constructor
      · rintro ((h | ⟨c1, ⟨pr, hpr, rfl⟩, h⟩) | ⟨rp1, hrp1, h⟩)
        · exact Or.inl h
        · exact Or.inr ⟨(ty, rawConns), Or.inl rfl, pr, hpr, h⟩
        · exact Or.inr ⟨rp1, Or.inr hrp1, h⟩
      · rintro (h | ⟨rp1, (rfl | hrp1), pr, hpr, h⟩)
        · exact Or.inl (Or.inl h)
        · exact Or.inl (Or.inr ⟨⟨pr.2, pr.1⟩, ⟨pr, hpr, rfl⟩, h⟩)
        · exact Or.inr ⟨rp1, hrp1, pr, hpr, h⟩

/-- Sources of parsed connections: the second regex group of a raw match. -/
theorem parse_connections_source (rawConns : List RawConn) (a : String) :
    (∃ c ∈ parse_connections rawConns, c.source = a) ↔
      ∃ pr ∈ rawConns, pr.2 = a := by
  unfold parse_connections
  constructor
  · rintro ⟨c, hcm, hsrc⟩
    rcases List.mem_map.1 hcm with ⟨pr, hpr, rfl⟩
    exact ⟨pr, hpr, hsrc⟩
  · rintro ⟨pr, hpr, hsrc⟩
    exact ⟨⟨pr.2, pr.1⟩, List.mem_map.2 ⟨pr, hpr, rfl⟩, hsrc⟩

/-- Sources of connections of the parts built by the part loop: those of
the accumulator plus the sources of the processed part matches. -/
theorem parse_parts_loop_parts_sources (inputs outputs : List String)
    (raw : List RawPart) (parts : List ChipInstance) (internal : List String)
    (a : String) :
    (∃ p ∈ (parse_parts_loop inputs outputs raw parts internal).1,
        ∃ c ∈ p.connections, c.source = a) ↔
      (∃ p ∈ parts, ∃ c ∈ p.connections, c.source = a) ∨
        ∃ rp ∈ raw, ∃ pr ∈ rp.2, pr.2 = a := by
  induction raw generalizing parts internal with
  | nil => simp [parse_parts_loop]
  | cons rp rest ih =>
      obtain ⟨ty, rawConns⟩ := rp
      rw [parse_parts_loop, ih]
      constructor
      · rintro (⟨p, hp, hc⟩ | ⟨rp1, hrp1, hc⟩)
        · rcases List.mem_append.1 hp with hp | hp
          · exact Or.inl ⟨p, hp, hc⟩
          · have hpe : p = ⟨ty, ty ++ "_" ++ toString parts.length,
                parse_connections rawConns⟩ := by simpa using hp
            subst hpe
            rcases (parse_connections_source rawConns a).1 hc with ⟨pr, hpr, h⟩
            exact Or.inr ⟨(ty, rawConns), List.mem_cons_self _ _, pr, hpr, h⟩
        · exact Or.inr ⟨rp1, List.mem_cons_of_mem _ hrp1, hc⟩
      · rintro (⟨p, hp, hc⟩ | ⟨rp1, hrp1, hc⟩)
        · exact Or.inl ⟨p, List.mem_append.2 (Or.inl hp), hc⟩
        · rcases List.mem_cons.1 hrp1 with heq | hrp1
          · subst heq
            refine Or.inl ⟨⟨ty, ty ++ "_" ++ toString parts.length,
              parse_connections rawConns⟩,
              List.mem_append.2 (Or.inr (List.mem_singleton.2 rfl)), ?_⟩
            exact (parse_connections_source rawConns a).2 hc
          · exact Or.inr ⟨rp1, hrp1, hc⟩

/-- C7: Internal-signal inference: for every successfully parsed chip, the
stored internal-pin set contains a name iff that name occurs as the source
of some connection of some part and is neither a declared input nor a
declared output of the enclosing chip (in particular destinations as such
never enter the set). -/
theorem C7_internal_signal_inference :
    ∀ (src : HDLSource) (en : Option String) (cache : Cache) (a : String),
      a ∈ ((parse_hdl src en cache).1).internal_pins ↔
        ((∃ p ∈ (parse_hdl src en cache).1.parts,
            ∃ c ∈ p.connections, c.source = a) ∧
          a ∉ (parse_hdl src en cache).1.inputs ∧
          a ∉ (parse_hdl src en cache).1.outputs) := by
  intro src en cache a
  show a ∈ (parse_parts_section src).2 ↔
    (∃ p ∈ (parse_parts_section src).1, ∃ c ∈ p.connections, c.source = a) ∧
      a ∉ src.inputs ∧ a ∉ src.outputs
  rw [parse_parts_section, parse_parts_loop_internal_mem,
    parse_parts_loop_parts_sources]
  simp only [List.not_mem_nil, false_and, exists_false, false_or]
  constructor
  · rintro ⟨rp, hrp, pr, hpr, heq, hin, hout⟩
    exact ⟨⟨rp, hrp, pr, hpr, heq⟩, hin, hout⟩
  · rintro ⟨⟨rp, hrp, pr, hpr, heq⟩, hin, hout⟩
    exact ⟨rp, hrp, pr, hpr, heq, hin, hout⟩

/-- Looking up a key just written into an association list finds the
written value. -/
theorem alistGet?_set_self {α : Type} (l : List (String × α)) (k : String)
    (v : α) : alistGet? (alistSet l k v) k = some v := by
  induction l with
  | nil => simp [alistSet, alistGet?]
  | cons kv rest ih =>
      rw [alistSet]
      split
      · rename_i h
        rw [alistGet?, if_pos rfl]
      · rename_i h
        rw [alistGet?, if_neg h]
        exact ih

/-- C10: `parse_hdl` ignores its `expected_name` argument entirely: for
every extracted source and any two values of `expected_name`, parsing
returns the same definition and cache, the definition's name is the name
written in the source's CHIP header, and the cache entry is keyed by that
parsed name — there is no check against `expected_name`. -/
theorem C10_expected_name_ignored :
    ∀ (src : HDLSource) (en1 en2 : Option String) (cache : Cache),
      parse_hdl src en1 cache = parse_hdl src en2 cache ∧
      (parse_hdl src en1 cache).1.name = src.chipName ∧
      alistGet? (parse_hdl src en1 cache).2 src.chipName =
        some (parse_hdl src en1 cache).1 := by
  intro src en1 en2 cache
  refine ⟨rfl, rfl, ?_⟩
  exact alistGet?_set_self cache src.chipName (parse_hdl src en1 cache).1

/-- A non-primitive `simulate` call is independent of the incoming shared
environment: the call begins by resetting `signal_values`, so only the
registry and the arguments matter.  In particular the state it returns —
which the caller goes on to read — carries the environment this call built,
not the caller's. -/
theorem simulate_env_indep (fuel : Nat) (fs : FS) (chip_def : ChipDefinition)
    (inputs : Env) (c : Cache)
    (h : ¬((alistGet? built_in_chips chip_def.name).isSome ∧
            chip_def.parts = []))
    (e1 e2 : Env) :
    simulate fuel fs chip_def inputs ⟨c, e1⟩ =
      simulate fuel fs chip_def inputs ⟨c, e2⟩ := by
  rw [simulate.eq_def]
  conv_rhs => rw [simulate.eq_def]
  simp only [if_neg h]

/-- C1 counterexample: simulating `pwDef` on a = 1 with the engine yields
out = 1, while the spec-modelled engine with isolated per-call environments
yields out = 0 (the correct negation).  After the Wire sub-chip call has
replaced the shared environment, the enclosing Not part and the final
output extraction read the sub-chip's bindings (the parent's input a and
signal w are gone), so the claimed isolation fails on this input. -/
theorem C1_counterexample :
    simOuts 3 noFiles pwDef [("a", 1)] ⟨cacheW, []⟩ = .ok [("out", 1)] ∧
    specOuts 3 noFiles pwDef [("a", 1)] cacheW = .ok [("out", 0)] ∧
    ([(("out" : String), (1 : Nat))] ≠ [("out", 0)]) := by
  refine ⟨?_, ?_, by decide⟩
  · have h := simulate_capped2 2 noFiles pwDef [("a", 1)] ⟨cacheW, []⟩
      ⟨cacheW, [("x", 1), ("nx", 0), ("y", 1), ("w", 1)]⟩
      ⟨cacheW, [("x", 0), ("nx", 1), ("y", 0), ("out", 1)]⟩
      (by decide) rfl rfl rfl
    simp [simOuts, h]
    rfl
  · rfl

/-- C1 amended: the signal-value environment is shared, not isolated.  When
a part resolves to a composite sub-chip definition, the enclosing
environment influences the part's evaluation only through the sub-input and
output-mapping scan: two enclosing states with the same registry whose
connection scans agree produce identical results — including the
environment the enclosing simulation continues with, which is therefore the
sub-chip's final environment (updated with the mapped outputs), not the
enclosing chip's own. -/
theorem C1_shared_environment :
    ∀ (f : Nat) (fs : FS) (p : ChipInstance) (c : Cache) (e1 e2 : Env)
      (d : ChipDefinition) (c1 : Cache),
      alistGet? built_in_chips p.chip_type = none →
      get_chip_definition fs p.chip_type c = .ok (some d, c1) →
      ¬((alistGet? built_in_chips d.name).isSome ∧ d.parts = []) →
      customPartScan d e1 p.connections [] [] =
        customPartScan d e2 p.connections [] [] →
      simulatePartWith (simulate f fs) fs p ⟨c, e1⟩ =
        simulatePartWith (simulate f fs) fs p ⟨c, e2⟩ := by
  intro f fs p c e1 e2 d c1 hb hres hcomp hscan
  simp only [simulatePartWith, hb, Option.isSome_none, Bool.false_eq_true,
    if_false, simulateCustomWith, hres]
  rw [hscan, simulate_env_indep f fs d _ c1 hcomp e1 e2]

/-- Witness for C1 amended, at the Wire part of `pwDef`: an extra junk
binding in the enclosing environment does not affect the scans, so the two
evaluations coincide — both ending in the Wire chip's environment. -/
theorem C1_witness :
    simulatePartWith (simulate 2 noFiles) noFiles
        ⟨"Wire", "Wire_0", [⟨"a", "x"⟩, ⟨"w", "y"⟩]⟩
        ⟨cacheW, [("a", 1), ("junk", 7)]⟩ =
      simulatePartWith (simulate 2 noFiles) noFiles
        ⟨"Wire", "Wire_0", [⟨"a", "x"⟩, ⟨"w", "y"⟩]⟩
        ⟨cacheW, [("a", 1)]⟩ :=
  C1_shared_environment 2 noFiles ⟨"Wire", "Wire_0", [⟨"a", "x"⟩, ⟨"w", "y"⟩]⟩
    cacheW [("a", 1), ("junk", 7)] [("a", 1)] wireDef cacheW
    rfl rfl (by decide) rfl

/-- C8 counterexample: resolving the unregistered name Bad, whose source
unit exists but is malformed, makes the lazy load raise the format error —
it propagates out of `get_chip_definition` instead of being turned into the
not-found result, because only `FileNotFoundError` is caught. -/
theorem C8_counterexample :
    get_chip_definition badFs "Bad" initCache = .error .formatError := rfl

/-- C8 amended: chip-type resolution returns the registry entry on a hit;
on a miss with no source file it returns not-found rather than raising; on
a miss with a loadable source it parses, caches (under the parsed header
name) and returns the definition; but on a miss with a malformed source
file the format error propagates instead of a not-found result. -/
theorem C8_resolution_behavior :
    ∀ (fs : FS) (name : String) (cache : Cache),
      (∀ d, alistGet? cache name = some d →
        get_chip_definition fs name cache = .ok (some d, cache)) ∧
      (alistGet? cache name = none → fs (name ++ ".hdl") = none →
        get_chip_definition fs name cache = .ok (none, cache)) ∧
      (∀ src, alistGet? cache name = none →
        fs (name ++ ".hdl") = some (some src) →
        get_chip_definition fs name cache =
          .ok (some (parse_hdl src (some (fileStem (name ++ ".hdl"))) cache).1,
            (parse_hdl src (some (fileStem (name ++ ".hdl"))) cache).2)) ∧
      (alistGet? cache name = none → fs (name ++ ".hdl") = some none →
        get_chip_definition fs name cache = .error .formatError) := by
  intro fs name cache
  refine ⟨?_, ?_, ?_, ?_⟩
  · intro d h
    simp [get_chip_definition, h]
  · intro h hf
    simp [get_chip_definition, parse_file, h, hf]
  · intro src h hf
    simp [get_chip_definition, parse_file, h, hf]
  · intro h hf
    simp [get_chip_definition, parse_file, h, hf]

/-- Witness for C8 amended at concrete inputs: the unregistered name Ghost
with no Ghost.hdl file resolves to not-found without raising. -/
theorem C8_witness :
    get_chip_definition noFiles "Ghost" initCache = .ok (none, initCache) :=
  (C8_resolution_behavior noFiles "Ghost" initCache).2.1 rfl rfl

/-- C9 counterexample: simulating `p9` on (x,w) = (0,1) from the initial
registry returns res = 0, and simulating it again with the identical
definition and inputs from the state the first call left behind returns
res = 1: the first call's lazy loads (Bar.hdl, then Foo.hdl whose header
re-keys the cached Bar) change what the second call computes, so simulate
is not a pure function of definition and inputs. -/
theorem C9_counterexample :
    outsOf (simulate 3 fs9 p9 [("x", 0), ("w", 1)] ⟨initCache, []⟩) =
      [("res", 0)] ∧
    outsOf ((simulate 3 fs9 p9 [("x", 0), ("w", 1)] ⟨initCache, []⟩).bind
        (fun r => simulate 3 fs9 p9 [("x", 0), ("w", 1)] r.2)) =
      [("res", 1)] ∧
    ([(("res" : String), (0 : Nat))] ≠ [("res", 1)]) := by
  have h1 := simulate_stable 2 fs9 p9 [("x", 0), ("w", 1)] ⟨initCache, []⟩
    ⟨cache9, [("x", 1), ("q", 0)]⟩ (by decide) rfl
  have h2 := simulate_capped2 2 fs9 p9 [("x", 0), ("w", 1)]
    ⟨cache9, [("x", 1), ("q", 0)]⟩
    ⟨cache9, [("x", 1), ("q", 0)]⟩
    ⟨cache9, [("x", 0), ("q", 1), ("y", 1), ("res", 1)]⟩
    (by decide) rfl rfl rfl
  refine ⟨?_, ?_, by decide⟩
  · rw [show (3 : Nat) = 2 + 1 from rfl, h1]
    rfl
  · rw [show (3 : Nat) = 2 + 1 from rfl, h1]
    simp only [Except.bind]
    rw [h2]
    rfl

/-- C9 amended: determinism holds whenever the first call leaves the
registry as it found it (in particular whenever no lazy source load
happens, e.g. every referenced chip type is already registered): a repeat
call with the identical definition and inputs, run from the state the first
call left behind, returns the identical output mapping — and reproduces
that state exactly, so registry entries stay unchanged.  The definition
itself is immutable data in this embedding, mirroring the source, which
never writes to `chip_def`.  In general, a lazy load during simulation may
overwrite a pre-existing registry entry (the cache is keyed by the parsed
header name) and change a repeat call's outputs. -/
theorem C9_determinism_when_registry_stable :
    ∀ (f : Nat) (fs : FS) (chip_def : ChipDefinition) (ins : Env) (c : Cache)
      (e e1 o : Env),
      simulate f fs chip_def ins ⟨c, e⟩ = .ok (o, ⟨c, e1⟩) →
      simulate f fs chip_def ins ⟨c, e1⟩ = .ok (o, ⟨c, e1⟩) := by
  intro f fs chip_def ins c e e1 o h
  by_cases hb : (alistGet? built_in_chips chip_def.name).isSome ∧
      chip_def.parts = []
  · rw [simulate_builtin_eq f fs chip_def ins ⟨c, e⟩ hb] at h
    obtain ⟨ho, he⟩ : simulate_builtin_chip chip_def ins = o ∧ e = e1 := by
      injection h with h1
      injection h1 with ho hst
      exact ⟨ho, congrArg SimSt.env hst⟩
    rw [simulate_builtin_eq f fs chip_def ins ⟨c, e1⟩ hb, ho]
  · rw [simulate_env_indep f fs chip_def ins c hb e1 e]
    exact h

/-- Witness for C9 amended: re-simulating the Nand-Not And chip on (1,1)
from the state its first simulation left behind returns the same output
dict and reproduces that state. -/
theorem C9_witness :
    simulate 1 noFiles andComposite [("a", 1), ("b", 1)]
        ⟨initCache, acEnv 1 1 0 1⟩ =
      .ok ([("out", 1)], ⟨initCache, acEnv 1 1 0 1⟩) :=
  C9_determinism_when_registry_stable 1 noFiles andComposite
    [("a", 1), ("b", 1)] initCache [] (acEnv 1 1 0 1) [("out", 1)] rfl
